import Mathlib

/-!
Verification of the SafeAPI-Bridge security core against its natural-language
specification.  The definitions below are shallow embeddings of the JavaScript
source: byte buffers are `List Nat` (each entry a byte value), hex strings are
`List Char`, database tables are association lists, and the ambient clock is an
explicit `Nat` millisecond argument.  Randomness (secrets, nonces) and the
AES-256-GCM primitive of the Node `crypto` library are passed in as parameters;
the GCM facts the proofs rely on (ciphertext length, tag length, decryption
inverting encryption) appear as explicit hypotheses.
-/

/-- Hexadecimal digit character for a value below 16, lowercase, as produced by
Node `Buffer.prototype.toString('hex')`. -/
def hexDigit (n : Nat) : Char :=
  if n < 10 then Char.ofNat (48 + n) else Char.ofNat (87 + n)

/-- Numeric value of a lowercase hexadecimal digit character. -/
def hexDigitVal (c : Char) : Nat :=
  if c.isDigit then c.toNat - 48
  else if 'a' ≤ c ∧ c ≤ 'f' then c.toNat - 87
  else 0

/-- `Buffer.prototype.toString('hex')`: two lowercase hex characters per byte. -/
def hexEncode : List Nat → List Char
  | [] => []
  | b :: rest => hexDigit (b / 16) :: hexDigit (b % 16) :: hexEncode rest

/-- `Buffer.from(s, 'hex')`: consume characters two at a time. -/
def hexDecode : List Char → List Nat
  | c1 :: c2 :: rest => (hexDigitVal c1 * 16 + hexDigitVal c2) :: hexDecode rest
  | _ => []

theorem hexDigitVal_hexDigit : ∀ n < 16, hexDigitVal (hexDigit n) = n := by decide

theorem hexEncode_append (a b : List Nat) :
    hexEncode (a ++ b) = hexEncode a ++ hexEncode b := by
  induction a with
  | nil => rfl
  | cons x xs ih => simp [hexEncode, ih]

theorem hexDecode_hexEncode (l : List Nat) (h : ∀ b ∈ l, b < 256) :
    hexDecode (hexEncode l) = l := by
  induction l with
  | nil => rfl
  | cons b rest ih =>
    have hb : b < 256 := h b (List.mem_cons_self b rest)
    have hdiv : b / 16 < 16 := by omega
    have hmod : b % 16 < 16 := Nat.mod_lt _ (by omega)
    have e1 := hexDigitVal_hexDigit (b / 16) hdiv
    have e2 := hexDigitVal_hexDigit (b % 16) hmod
    simp only [hexEncode, hexDecode, e1, e2]
    rw [ih (fun x hx => h x (List.mem_cons_of_mem _ hx))]
    congr 1
    omega

theorem length_hexEncode (l : List Nat) : (hexEncode l).length = 2 * l.length := by
  induction l with
  | nil => rfl
  | cons b rest ih => simp [hexEncode, ih]; omega

/-- An authenticated-encryption primitive (the shape of Node AES-256-GCM as the
source uses it): `enc key iv aad plaintext` yields ciphertext and tag,
`dec key iv aad tag ciphertext` yields the plaintext or fails when the tag does
not verify. -/
structure AEAD where
  enc : List Nat → List Nat → List Nat → List Nat → List Nat × List Nat
  dec : List Nat → List Nat → List Nat → List Nat → List Nat → Option (List Nat)

/-- Deterministic tag used by the concrete witness cipher `tagAEAD`. -/
def mkTag (key iv aad ct : List Nat) : List Nat :=
  List.replicate 16 ((key.sum + iv.sum + aad.sum + ct.sum) % 256)

/-- A concrete cipher satisfying the GCM facts the theorems assume; used only to
instantiate witnesses and counterexamples on explicit inputs. -/
def tagAEAD : AEAD where
  enc := fun key iv aad m => (m, mkTag key iv aad m)
  dec := fun key iv aad tag ct => if tag = mkTag key iv aad ct then some ct else none

theorem tagAEAD_ct_length (key iv aad m : List Nat) :
    (tagAEAD.enc key iv aad m).1.length = m.length := rfl

theorem tagAEAD_tag_length (key iv aad m : List Nat) :
    (tagAEAD.enc key iv aad m).2.length = 16 := by
  simp [tagAEAD, mkTag]

theorem tagAEAD_correct (key iv aad m : List Nat) :
    tagAEAD.dec key iv aad (tagAEAD.enc key iv aad m).2 (tagAEAD.enc key iv aad m).1 =
      some m := by
  simp [tagAEAD]

theorem tagAEAD_ct_bytes (key iv aad m : List Nat) (h : ∀ b ∈ m, b < 256) :
    ∀ b ∈ (tagAEAD.enc key iv aad m).1, b < 256 := h

theorem tagAEAD_tag_bytes (key iv aad m : List Nat) :
    ∀ b ∈ (tagAEAD.enc key iv aad m).2, b < 256 := by
  intro b hb
  simp [tagAEAD, mkTag] at hb
  subst hb
  exact Nat.mod_lt _ (by omega)

/-- One row of the `splitKey` table (src/unnamed/part_014).  `serverPart`,
`clientPart` and `decryptionSecret` are stored as hex strings exactly as the
source persists them. -/
structure SplitKeyRecord where
  keyId : String
  apiProvider : List Nat
  serverPart : List Char
  clientPart : List Char
  decryptionSecret : List Char
  createdBy : String
  active : Bool
  usageCount : Nat
deriving DecidableEq

/-- What `splitApiKey` returns to the caller: the key id and the client part.
The server part and decryption secret are never serialized into the result. -/
structure SplitResult where
  keyId : String
  clientPart : List Char
deriving DecidableEq

/-- `SplitKeyService.splitApiKey` (src/unnamed/part_014 lines 26-83).  The fresh
random `secretBytes` and `iv` are arguments.  The duplicate-keyId guard models
the unique constraint on `keyId` together with the existence check in the split
route (src/unnamed/part_004).  Modelled from the spec: the prisma schema is not
under src/, so record creation yields `active := true` per the §3 lifecycle
(created active, terminated only by deactivation). -/
def splitApiKey (A : AEAD) (store : List SplitKeyRecord)
    (secretBytes iv originalKey apiProvider : List Nat) (keyId createdBy : String) :
    Option (List SplitKeyRecord × SplitResult) :=
  if store.any (fun r => r.keyId = keyId) then none
  else
    let decryptionSecret := hexEncode secretBytes
    let keyBuffer := hexDecode decryptionSecret
    let ct := (A.enc keyBuffer iv apiProvider originalKey).1
    let tag := (A.enc keyBuffer iv apiProvider originalKey).2
    let encryptedBuffer := hexDecode (hexEncode ct)
    let midPoint := encryptedBuffer.length / 2
    let serverPart :=
      hexEncode (encryptedBuffer.take midPoint) ++ hexEncode tag ++ hexEncode iv
    let clientPart := hexEncode (encryptedBuffer.drop midPoint)
    let record : SplitKeyRecord :=
      ⟨keyId, apiProvider, serverPart, clientPart, decryptionSecret, createdBy, true, 0⟩
    some (record :: store, ⟨keyId, clientPart⟩)

/-- The three reconstruction failure causes of `reconstructApiKey`. -/
inductive RecErr
  | notFound
  | fragmentMismatch
  | decryptionFailed
deriving DecidableEq

/-- The message attached to each failure cause.  The first two strings are
verbatim from src/unnamed/part_014; the third is the Node crypto library's
authentication-failure text, which is external to the repository. -/
def recErrMessage : RecErr → String
  | .notFound => "Split key not found or inactive"
  | .fragmentMismatch => "Invalid client part"
  | .decryptionFailed => "Unsupported state or unable to authenticate data"

/-- `Buffer.prototype.slice(a, b)`. -/
def sliceList (l : List Nat) (a b : Nat) : List Nat := (l.drop a).take (b - a)

/-- `SplitKeyService.reconstructApiKey` (src/unnamed/part_014 lines 91-147):
look up the active record, compare the supplied client part with the stored
one, rebuild nonce and tag from the server part's fixed layout, decrypt, and on
success bump the usage counter. -/
def reconstructApiKey (A : AEAD) (store : List SplitKeyRecord)
    (keyId : String) (clientPart : List Char) :
    Except RecErr (List Nat × List SplitKeyRecord) :=
  match store.find? (fun r => r.keyId = keyId && r.active) with
  | none => .error .notFound
  | some sk =>
    if sk.clientPart ≠ clientPart then .error .fragmentMismatch
    else
      let serverPartBuffer := hexDecode sk.serverPart
      let tagStart := serverPartBuffer.length - 16 - 16
      let ivStart := serverPartBuffer.length - 16
      let encryptedPart1 := serverPartBuffer.take tagStart
      let tag := sliceList serverPartBuffer tagStart ivStart
      let iv := serverPartBuffer.drop ivStart
      let encryptedPart2 := hexDecode clientPart
      let fullEncrypted := encryptedPart1 ++ encryptedPart2
      let keyBuffer := hexDecode sk.decryptionSecret
      match A.dec keyBuffer iv sk.apiProvider tag fullEncrypted with
      | none => .error .decryptionFailed
      | some m =>
        .ok (m, store.map (fun r =>
          if r.keyId = keyId then { r with usageCount := r.usageCount + 1 } else r))

/-- Failure causes of `deactivateSplitKey`. -/
inductive DeactErr
  | notFound
  | notAuthorized
deriving DecidableEq

/-- `SplitKeyService.deactivateSplitKey` (src/unnamed/part_014 lines 221-245):
only the creator may deactivate; on success the record's `active` flag is set
to false. -/
def deactivateSplitKey (store : List SplitKeyRecord) (keyId createdBy : String) :
    Except DeactErr (List SplitKeyRecord) :=
  match store.find? (fun r => r.keyId = keyId) with
  | none => .error .notFound
  | some sk =>
    if sk.createdBy ≠ createdBy then .error .notAuthorized
    else .ok (store.map (fun r =>
      if r.keyId = keyId then { r with active := false } else r))

/-- `SplitKeyService.listSplitKeys`: all records created by the given user
(the source additionally projects safe fields and orders by creation time). -/
def listSplitKeys (store : List SplitKeyRecord) (createdBy : String) :
    List SplitKeyRecord :=
  store.filter (fun r => r.createdBy = createdBy)

theorem take_len_app (a b : List Nat) : (a ++ b).take a.length = a := by
  induction a with
  | nil => rfl
  | cons x xs ih => simp [ih]

theorem drop_len_app (a b : List Nat) : (a ++ b).drop a.length = b := by
  induction a with
  | nil => rfl
  | cons x xs ih => simp [ih]

theorem drop_len_add_app (a b : List Nat) (n : Nat) :
    (a ++ b).drop (a.length + n) = b.drop n := by
  induction a with
  | nil => simp
  | cons x xs ih => simp [Nat.succ_add, ih]

/-- Slicing the fixed server-fragment layout `firstHalf ++ tag ++ nonce` at the
offsets `reconstructApiKey` computes recovers the three components. -/
theorem splitLayout (ct1 tg iv : List Nat) (htag : tg.length = 16)
    (hiv : iv.length = 16) :
    (ct1 ++ tg ++ iv).take ((ct1 ++ tg ++ iv).length - 16 - 16) = ct1 ∧
    sliceList (ct1 ++ tg ++ iv) ((ct1 ++ tg ++ iv).length - 16 - 16)
      ((ct1 ++ tg ++ iv).length - 16) = tg ∧
    (ct1 ++ tg ++ iv).drop ((ct1 ++ tg ++ iv).length - 16) = iv := by
  have hlen : (ct1 ++ tg ++ iv).length = ct1.length + 32 := by
    simp [htag, hiv]
  have hA : (ct1 ++ tg ++ iv).length - 16 - 16 = ct1.length := by omega
  have hB : (ct1 ++ tg ++ iv).length - 16 = ct1.length + 16 := by omega
  refine ⟨?_, ?_, ?_⟩
  · rw [hA, List.append_assoc, take_len_app]
  · rw [sliceList, hA, hB, List.append_assoc, drop_len_app]
    have : ct1.length + 16 - ct1.length = tg.length := by omega
    rw [this, take_len_app]
  · rw [hB, List.append_assoc, drop_len_add_app, ← htag, drop_len_app]

/-- The plaintext a reconstruction yields, forgetting the store update. -/
def recOutput : Except RecErr (List Nat × List SplitKeyRecord) → Option (List Nat)
  | .ok (m, _) => some m
  | .error _ => none

/-- C2. Round-trip: for every valid plaintext credential, provider and fresh
keyId, reconstructing with the caller fragment returned by the split yields
exactly the original credential: the midpoint split and the server fragment's
fixed `firstHalf ++ tag ++ nonce` layout are re-derived correctly.  The GCM
facts the source relies on (ciphertext length equals plaintext length, 128-bit
tag, decryption inverts encryption) are hypotheses on the cipher. -/
theorem C2_split_reconstruct_roundtrip
    (A : AEAD)
    (htaglen : ∀ k iv aad m, (A.enc k iv aad m).2.length = 16)
    (hctbytes : ∀ k iv aad m, (∀ b ∈ m, b < 256) → ∀ b ∈ (A.enc k iv aad m).1, b < 256)
    (htagbytes : ∀ k iv aad m, ∀ b ∈ (A.enc k iv aad m).2, b < 256)
    (hcorrect : ∀ k iv aad m,
      A.dec k iv aad (A.enc k iv aad m).2 (A.enc k iv aad m).1 = some m)
    (store : List SplitKeyRecord) (secretBytes iv originalKey apiProvider : List Nat)
    (keyId owner : String)
    (hivb : ∀ b ∈ iv, b < 256) (hivlen : iv.length = 16)
    (horig : ∀ b ∈ originalKey, b < 256)
    (hfresh : store.any (fun r => r.keyId = keyId) = false)
    (store1 : List SplitKeyRecord) (res : SplitResult)
    (hsplit : splitApiKey A store secretBytes iv originalKey apiProvider keyId owner =
      some (store1, res)) :
    recOutput (reconstructApiKey A store1 keyId res.clientPart) = some originalKey := by
  classical
  set kb := hexDecode (hexEncode secretBytes) with hkb
  set ct := (A.enc kb iv apiProvider originalKey).1 with hct
  set tg := (A.enc kb iv apiProvider originalKey).2 with htg
  have hctb : ∀ b ∈ ct, b < 256 := hctbytes kb iv apiProvider originalKey horig
  have hctdec : hexDecode (hexEncode ct) = ct := hexDecode_hexEncode ct hctb
  rw [splitApiKey, hfresh] at hsplit
  simp only [Bool.false_eq_true, if_false, Option.some.injEq, Prod.mk.injEq] at hsplit
  obtain ⟨hstore1, hres⟩ := hsplit
  set mid := (hexDecode (hexEncode ct)).length / 2 with hmid
  have hmid' : mid = ct.length / 2 := by rw [hmid, hctdec]
  have hmidle : mid ≤ ct.length := by
    rw [hmid']; omega
  -- the record created by the split
  set record : SplitKeyRecord :=
    ⟨keyId, apiProvider,
      hexEncode ((hexDecode (hexEncode ct)).take mid) ++ hexEncode tg ++ hexEncode iv,
      hexEncode ((hexDecode (hexEncode ct)).drop mid),
      hexEncode secretBytes, owner, true, 0⟩ with hrecord
  have hstore1' : store1 = record :: store := hstore1.symm
  have hresc : res.clientPart = hexEncode (ct.drop mid) := by
    rw [← hres, hctdec]
  subst hstore1'
  have hfind : (record :: store).find? (fun r => r.keyId = keyId && r.active) =
      some record := by
    simp [List.find?, hrecord]
  have hclient : record.clientPart = res.clientPart := by
    rw [hresc, hrecord, hctdec]
  have hnotne : ¬(record.clientPart ≠ res.clientPart) := by
    rw [hclient]; exact fun h => h rfl
  simp only [reconstructApiKey, hfind, if_neg hnotne]
  have hserver : hexDecode record.serverPart = ct.take mid ++ tg ++ iv := by
    rw [hrecord]
    show hexDecode (hexEncode ((hexDecode (hexEncode ct)).take mid) ++
      hexEncode tg ++ hexEncode iv) = _
    rw [hctdec, ← hexEncode_append, ← hexEncode_append]
    refine hexDecode_hexEncode _ ?_
    intro b hb
    rcases List.mem_append.1 hb with hb | hb
    · rcases List.mem_append.1 hb with hb | hb
      · exact hctb b (List.take_subset _ _ hb)
      · exact htagbytes kb iv apiProvider originalKey b hb
    · exact hivb b hb
  have htg16 : tg.length = 16 := htaglen kb iv apiProvider originalKey
  obtain ⟨hL1, hL2, hL3⟩ := splitLayout (ct.take mid) tg iv htg16 hivlen
  rw [hserver, hL1, hL2, hL3]
  have hfull : ct.take mid ++ hexDecode res.clientPart = ct := by
    rw [hresc]
    rw [hexDecode_hexEncode _ (fun b hb => hctb b (List.drop_subset _ _ hb))]
    exact List.take_append_drop mid ct
  rw [hfull]
  have hsec : hexDecode record.decryptionSecret = kb := by rw [hrecord]
  rw [hsec, hct, htg, hcorrect kb iv apiProvider originalKey]
  rfl

/-- Concrete decryption secret for the round-trip witness. -/
def c2Secret : List Nat := List.replicate 32 7

/-- Concrete nonce for the round-trip witness. -/
def c2Iv : List Nat := List.replicate 16 1

/-- UTF-8 bytes of the credential `sk-abc123`. -/
def c2Key : List Nat := [115, 107, 45, 97, 98, 99, 49, 50, 51]

/-- UTF-8 bytes of the provider name `openai`. -/
def c2Provider : List Nat := [111, 112, 101, 110, 97, 105]

/-- The store and caller-visible result of the concrete witness split. -/
def c2SplitOut : List SplitKeyRecord × SplitResult :=
  (splitApiKey tagAEAD [] c2Secret c2Iv c2Key c2Provider "test-key-12345678"
    "alice").getD ([], ⟨"", []⟩)

theorem C2_split_reconstruct_roundtrip_witness :
    recOutput (reconstructApiKey tagAEAD c2SplitOut.1 "test-key-12345678"
      c2SplitOut.2.clientPart) = some c2Key :=
  C2_split_reconstruct_roundtrip tagAEAD tagAEAD_tag_length tagAEAD_ct_bytes
    tagAEAD_tag_bytes tagAEAD_correct [] c2Secret c2Iv c2Key c2Provider
    "test-key-12345678" "alice" (by decide) (by decide) (by decide) rfl
    c2SplitOut.1 c2SplitOut.2 rfl

/-- `decryptKey` from the crypto utility module (src/unnamed/part_018): the
standalone reconstruction helper the proxy controller calls.  `none` stands for
a thrown error. -/
def decryptKey (A : AEAD) (serverPart decryptionSecret : List Char)
    (apiProvider : List Nat) (clientPart : List Char) : Option (List Nat) :=
  if serverPart = [] ∨ decryptionSecret = [] ∨ apiProvider = [] ∨ clientPart = [] then
    none
  else
    let serverBuf := hexDecode serverPart
    if serverBuf.length ≤ 16 + 16 then none
    else
      let tagStart := serverBuf.length - 16 - 16
      let ivStart := serverBuf.length - 16
      let encryptedPart1 := serverBuf.take tagStart
      let tag := sliceList serverBuf tagStart ivStart
      let iv := serverBuf.drop ivStart
      let encryptedPart2 := hexDecode clientPart
      let fullEncrypted := encryptedPart1 ++ encryptedPart2
      let keyBuffer := hexDecode decryptionSecret
      if keyBuffer.length ≠ 32 then none
      else A.dec keyBuffer iv apiProvider tag fullEncrypted

/-- An error response sent by the proxy controller's BYOK branch. -/
structure ProxyErr where
  status : Nat
  error : String
  message : String
deriving DecidableEq

/-- The BYOK credential-resolution branch of `proxyRequest`
(src/src/controllers/proxy.js lines 61-114): look the record up by keyId,
require it active, compare the client part, then call `decryptKey`.  The
requesting identity `userId` is in scope in the source (from the JWT) but is
never consulted by this branch. -/
def proxyByok (A : AEAD) (store : List SplitKeyRecord) (userId keyId : String)
    (clientPart : List Char) : Except ProxyErr (List Nat) :=
  match store.find? (fun r => r.keyId = keyId) with
  | none => .error ⟨401, "Invalid X-Partial-Key-Id", "Split key not found or inactive"⟩
  | some sk =>
    if !sk.active then
      .error ⟨401, "Invalid X-Partial-Key-Id", "Split key not found or inactive"⟩
    else if sk.clientPart ≠ clientPart then
      .error ⟨401, "Invalid Split Key", "Invalid X-Partial-Key or X-Partial-Key-Id combination"⟩
    else
      match decryptKey A sk.serverPart sk.decryptionSecret sk.apiProvider clientPart with
      | none => .error ⟨401, "Failed to decrypt API key",
          "Unable to reconstruct API key from split parts"⟩
      | some k => .ok k

/-- The rejection body of the `reconstructApiKey` middleware
(src/src/middleware/splitKey.js lines 84-93): one fixed 401 error and message
for every failure cause, plus a `details` field only in development mode. -/
structure MwResponse where
  status : Nat
  error : String
  message : String
  details : Option String
deriving DecidableEq

/-- The middleware's response to a reconstruction failure.  The service wraps
the underlying message as `Failed to reconstruct API key: ...`; the middleware
exposes it via `details` only when NODE_ENV is development. -/
def middlewareReconstructFailure (devMode : Bool) (e : RecErr) : MwResponse :=
  ⟨401, "Split Key authentication failed",
    "Unable to reconstruct API key from split parts",
    if devMode then some ("Failed to reconstruct API key: " ++ recErrMessage e)
    else none⟩

/-- The operations of the split-key engine that touch the store. -/
inductive SkOp where
  | splitOp (secretBytes iv originalKey apiProvider : List Nat) (keyId createdBy : String)
  | reconstructOp (keyId : String) (clientPart : List Char)
  | deactivateOp (keyId createdBy : String)

/-- Effect of one engine operation on the store; a failed operation leaves the
store unchanged. -/
def skStep (A : AEAD) (store : List SplitKeyRecord) : SkOp → List SplitKeyRecord
  | .splitOp s i o p k c =>
    match splitApiKey A store s i o p k c with
    | some (st, _) => st
    | none => store
  | .reconstructOp k c =>
    match reconstructApiKey A store k c with
    | .ok (_, st) => st
    | .error _ => store
  | .deactivateOp k c =>
    match deactivateSplitKey store k c with
    | .ok st => st
    | .error _ => store

/-- Run a sequence of engine operations. -/
def skRun (A : AEAD) (store : List SplitKeyRecord) (ops : List SkOp) :
    List SplitKeyRecord :=
  ops.foldl (skStep A) store

/-- Inversion for `reconstructApiKey`: it either fails, or succeeds and only
bumps the matching record's usage counter. -/
theorem reconstruct_store_shape (A : AEAD) (st : List SplitKeyRecord)
    (k : String) (c : List Char) :
    (∃ e, reconstructApiKey A st k c = .error e) ∨
    (∃ m, reconstructApiKey A st k c = .ok (m, st.map (fun r =>
      if r.keyId = k then { r with usageCount := r.usageCount + 1 } else r))) := by
  unfold reconstructApiKey
  split
  · exact Or.inl ⟨_, rfl⟩
  · rename_i sk hsk
    by_cases hcp : sk.clientPart ≠ c
    · rw [if_pos hcp]; exact Or.inl ⟨_, rfl⟩
    · rw [if_neg hcp]
      dsimp only
      split
      · exact Or.inl ⟨_, rfl⟩
      · exact Or.inr ⟨_, rfl⟩

/-- The store invariant behind deactivation finality: a record for the key
exists and every record for the key is inactive. -/
def DeactInv (k : String) (st : List SplitKeyRecord) : Prop :=
  (∃ r ∈ st, r.keyId = k) ∧ (∀ r ∈ st, r.keyId = k → r.active = false)

theorem deactInv_step (A : AEAD) (k : String) (st : List SplitKeyRecord)
    (h : DeactInv k st) (op : SkOp) : DeactInv k (skStep A st op) := by
  obtain ⟨⟨w, hw, hwk⟩, hinv⟩ := h
  cases op with
  | splitOp s i o p k' c =>
    by_cases hdup : st.any (fun r => r.keyId = k') = true
    · simp only [skStep, splitApiKey, hdup, if_true]
      exact ⟨⟨w, hw, hwk⟩, hinv⟩
    · have hkne : k' ≠ k := by
        intro he
        subst he
        exact hdup (List.any_eq_true.mpr ⟨w, hw, by simp [hwk]⟩)
      simp only [skStep, splitApiKey, hdup, Bool.false_eq_true, if_false]
      refine ⟨⟨w, List.mem_cons_of_mem _ hw, hwk⟩, ?_⟩
      intro r hr hrk
      rcases List.mem_cons.1 hr with hr | hr
      · subst hr
        exact absurd hrk hkne
      · exact hinv r hr hrk
  | reconstructOp k' c =>
    rcases reconstruct_store_shape A st k' c with ⟨e, he⟩ | ⟨m, hm⟩
    · simp only [skStep, he]
      exact ⟨⟨w, hw, hwk⟩, hinv⟩
    · simp only [skStep, hm]
      constructor
      · refine ⟨_, List.mem_map_of_mem _ hw, ?_⟩
        by_cases hwe : w.keyId = k'
        · rw [if_pos hwe]; exact hwk
        · rw [if_neg hwe]; exact hwk
      · intro r hr hrk
        obtain ⟨r0, hr0, hr0e⟩ := List.mem_map.1 hr
        by_cases h0 : r0.keyId = k'
        · rw [if_pos h0] at hr0e
          subst hr0e
          exact hinv r0 hr0 hrk
        · rw [if_neg h0] at hr0e
          subst hr0e
          exact hinv r0 hr0 hrk
  | deactivateOp k' c =>
    cases hf : st.find? (fun r => r.keyId = k') with
    | none =>
      simp only [skStep, deactivateSplitKey, hf]
      exact ⟨⟨w, hw, hwk⟩, hinv⟩
    | some sk =>
      by_cases hcb : sk.createdBy ≠ c
      · simp only [skStep, deactivateSplitKey, hf, if_pos hcb]
        exact ⟨⟨w, hw, hwk⟩, hinv⟩
      · simp only [skStep, deactivateSplitKey, hf, if_neg hcb]
        constructor
        · refine ⟨_, List.mem_map_of_mem _ hw, ?_⟩
          by_cases hwe : w.keyId = k'
          · rw [if_pos hwe]; exact hwk
          · rw [if_neg hwe]; exact hwk
        · intro r hr hrk
          obtain ⟨r0, hr0, hr0e⟩ := List.mem_map.1 hr
          by_cases h0 : r0.keyId = k'
          · rw [if_pos h0] at hr0e
            subst hr0e
            rfl
          · rw [if_neg h0] at hr0e
            subst hr0e
            exact hinv r0 hr0 hrk

theorem deactInv_run (A : AEAD) (k : String) (st : List SplitKeyRecord)
    (h : DeactInv k st) (ops : List SkOp) : DeactInv k (skRun A st ops) := by
  induction ops generalizing st with
  | nil => exact h
  | cons op rest ih => exact ih _ (deactInv_step A k st h op)

theorem deactivate_ok_inv (store store1 : List SplitKeyRecord) (keyId owner : String)
    (h : deactivateSplitKey store keyId owner = .ok store1) : DeactInv keyId store1 := by
  unfold deactivateSplitKey at h
  cases hf : store.find? (fun r => r.keyId = keyId) with
  | none => rw [hf] at h; exact absurd h (by simp)
  | some sk =>
    rw [hf] at h
    dsimp only at h
    by_cases hcb : sk.createdBy ≠ owner
    · rw [if_pos hcb] at h; exact absurd h (by simp)
    · rw [if_neg hcb] at h
      have hst : store.map (fun r =>
          if r.keyId = keyId then { r with active := false } else r) = store1 := by
        injection h
      have hskmem : sk ∈ store := List.mem_of_find?_eq_some hf
      have hskk : sk.keyId = keyId := by
        have := List.find?_some hf
        simpa using this
      constructor
      · have hmem := List.mem_map_of_mem
          (fun r => if r.keyId = keyId then { r with active := false } else r) hskmem
        rw [hst] at hmem
        refine ⟨_, hmem, ?_⟩
        dsimp only
        rw [if_pos hskk]
        exact hskk
      · intro r hr hrk
        rw [← hst] at hr
        obtain ⟨r0, hr0, hr0e⟩ := List.mem_map.1 hr
        by_cases h0 : r0.keyId = keyId
        · rw [if_pos h0] at hr0e
          subst hr0e
          rfl
        · rw [if_neg h0] at hr0e
          subst hr0e
          exact absurd hrk h0

/-- C7. Deactivation finality: once `deactivate(keyId, owner)` succeeds, after
any further sequence of split-key engine operations every record for that keyId
is still inactive (no operation reactivates it), and every `Reconstruct` for
that keyId fails — in particular with the originally-correct caller
fragment. -/
theorem C7_deactivation_final (A : AEAD) (store store1 : List SplitKeyRecord)
    (keyId owner : String)
    (hdeact : deactivateSplitKey store keyId owner = .ok store1)
    (ops : List SkOp) (clientPart : List Char) :
    ((skRun A store1 ops).all (fun r => !(r.keyId == keyId) || !r.active)) = true ∧
    reconstructApiKey A (skRun A store1 ops) keyId clientPart = .error .notFound := by
  have hinv : DeactInv keyId (skRun A store1 ops) :=
    deactInv_run A keyId store1 (deactivate_ok_inv store store1 keyId owner hdeact) ops
  obtain ⟨hexr, hall⟩ := hinv
  constructor
  · rw [List.all_eq_true]
    intro r hr
    by_cases hk : r.keyId = keyId
    · have := hall r hr hk
      simp [hk, this]
    · simp [hk]
  · have hfind : (skRun A store1 ops).find? (fun r => r.keyId = keyId && r.active) =
        none := by
      rw [List.find?_eq_none]
      intro r hr
      by_cases hk : r.keyId = keyId
      · have := hall r hr hk
        simp [hk, this]
      · simp [hk]
    unfold reconstructApiKey
    rw [hfind]

/-- A concrete active record owned by `alice`, for the deactivation witness. -/
def c7Record : SplitKeyRecord :=
  ⟨"key-abcdef12", [1], hexEncode [1, 2, 3], hexEncode [4, 5],
    hexEncode (List.replicate 32 9), "alice", true, 0⟩

/-- The store after `alice` deactivates her key. -/
def c7Deact : List SplitKeyRecord :=
  (deactivateSplitKey [c7Record] "key-abcdef12" "alice").toOption.getD []

theorem C7_deactivation_final_witness :
    ((skRun tagAEAD c7Deact [SkOp.reconstructOp "key-abcdef12" (hexEncode [4, 5])]).all
      (fun r => !(r.keyId == "key-abcdef12") || !r.active)) = true ∧
    reconstructApiKey tagAEAD
      (skRun tagAEAD c7Deact [SkOp.reconstructOp "key-abcdef12" (hexEncode [4, 5])])
      "key-abcdef12" (hexEncode [4, 5]) = .error .notFound :=
  C7_deactivation_final tagAEAD [c7Record] c7Deact "key-abcdef12" "alice" rfl
    [SkOp.reconstructOp "key-abcdef12" (hexEncode [4, 5])] (hexEncode [4, 5])

/-- The store and caller result of a concrete split owned by `alice`
(32-byte secret, 16-byte nonce, 4-byte credential), used for the C1 claim. -/
def c1SplitOut : List SplitKeyRecord × SplitResult :=
  (splitApiKey tagAEAD [] (List.replicate 32 3) (List.replicate 16 2)
    [10, 20, 30, 40] [111] "alice-key-01" "alice").getD ([], ⟨"", []⟩)

/-- The single record of `c1SplitOut`. -/
def c1Record : SplitKeyRecord :=
  c1SplitOut.1.headD ⟨"", [], [], [], [], "", false, 0⟩

/-- C1 counterexample: the claim states reconstruction on behalf of a non-owner
identity fails, but the proxy controller's BYOK branch never consults the
requesting identity: `bob` reconstructs `alice`'s credential given only the
keyId and the correct caller fragment. -/
theorem C1_counterexample :
    c1SplitOut.1.map (fun r => r.createdBy) = ["alice"] ∧
    "bob" ≠ "alice" ∧
    proxyByok tagAEAD c1SplitOut.1 "bob" "alice-key-01" c1SplitOut.2.clientPart =
      .ok [10, 20, 30, 40] := by
  refine ⟨rfl, by decide, rfl⟩

/-- C1 amended: listing returns exactly the requesting identity's keys and
deactivation by a non-owner fails `Forbidden` (`Not authorized`), but
reconstruction is possession-scoped, not owner-scoped: the proxy BYOK branch
gives the same result for any two requesting identities. -/
theorem C1_owner_scoping_amended (A : AEAD) (store : List SplitKeyRecord)
    (u other keyId : String) (sk : SplitKeyRecord) (clientPart : List Char)
    (hfind : store.find? (fun r => r.keyId = keyId) = some sk)
    (hown : sk.createdBy ≠ u) :
    ((listSplitKeys store u).all (fun r => r.createdBy == u)) = true ∧
    (store.all (fun r => !(r.createdBy == u) ||
      decide (r ∈ listSplitKeys store u))) = true ∧
    deactivateSplitKey store keyId u = .error .notAuthorized ∧
    proxyByok A store u keyId clientPart = proxyByok A store other keyId clientPart := by
  refine ⟨?_, ?_, ?_, rfl⟩
  · rw [List.all_eq_true]
    intro r hr
    rw [listSplitKeys, List.mem_filter] at hr
    simpa using hr.2
  · rw [List.all_eq_true]
    intro r hr
    by_cases hc : r.createdBy = u
    · have : r ∈ listSplitKeys store u := by
        rw [listSplitKeys, List.mem_filter]
        exact ⟨hr, by simpa using hc⟩
      simp [this]
    · simp [hc]
  · unfold deactivateSplitKey
    rw [hfind]
    dsimp only
    rw [if_pos hown]

theorem C1_owner_scoping_amended_witness :
    ((listSplitKeys c1SplitOut.1 "bob").all (fun r => r.createdBy == "bob")) = true ∧
    (c1SplitOut.1.all (fun r => !(r.createdBy == "bob") ||
      decide (r ∈ listSplitKeys c1SplitOut.1 "bob"))) = true ∧
    deactivateSplitKey c1SplitOut.1 "alice-key-01" "bob" = .error .notAuthorized ∧
    proxyByok tagAEAD c1SplitOut.1 "bob" "alice-key-01" c1SplitOut.2.clientPart =
      proxyByok tagAEAD c1SplitOut.1 "carol" "alice-key-01" c1SplitOut.2.clientPart :=
  C1_owner_scoping_amended tagAEAD c1SplitOut.1 "bob" "carol" "alice-key-01"
    c1Record c1SplitOut.2.clientPart rfl (by decide)

/-- The store and caller result of a concrete split owned by `carol`, used for
the C3 claim about failure-response shapes. -/
def c3SplitOut : List SplitKeyRecord × SplitResult :=
  (splitApiKey tagAEAD [] (List.replicate 32 4) (List.replicate 16 6)
    [50, 60, 70, 80] [103] "c3key-00000001" "carol").getD ([], ⟨"", []⟩)

/-- C3 counterexample: the claim states all reconstruction failures carry one
identical generic message in every deployment mode, but the proxy controller
answers a missing keyId and a wrong fragment with two different bodies, and the
middleware's development mode exposes cause-specific details. -/
theorem C3_counterexample :
    proxyByok tagAEAD c3SplitOut.1 "carol" "unknown-key-99" c3SplitOut.2.clientPart =
      .error ⟨401, "Invalid X-Partial-Key-Id", "Split key not found or inactive"⟩ ∧
    proxyByok tagAEAD c3SplitOut.1 "carol" "c3key-00000001" (hexEncode [9, 9]) =
      .error ⟨401, "Invalid Split Key",
        "Invalid X-Partial-Key or X-Partial-Key-Id combination"⟩ ∧
    ("Invalid X-Partial-Key-Id" : String) ≠ "Invalid Split Key" ∧
    middlewareReconstructFailure true .notFound ≠
      middlewareReconstructFailure true .fragmentMismatch := by
  refine ⟨rfl, rfl, by decide, by decide⟩

/-- C3 amended: every reconstruction failure is answered with HTTP 401
(`Unauthenticated`) on both the middleware path and the proxy controller path,
and outside development mode the middleware body is one fixed generic message
for all causes; but the proxy controller's bodies are cause-specific and the
middleware's development mode attaches cause details. -/
theorem C3_amended (A : AEAD) (devMode : Bool) (e e2 : RecErr)
    (store : List SplitKeyRecord) (u k : String) (c : List Char) (err : ProxyErr)
    (hp : proxyByok A store u k c = .error err) :
    (middlewareReconstructFailure devMode e).status = 401 ∧
    middlewareReconstructFailure false e = middlewareReconstructFailure false e2 ∧
    err.status = 401 := by
  refine ⟨rfl, rfl, ?_⟩
  revert hp
  unfold proxyByok
  split
  · intro hp
    injection hp with h
    subst h
    rfl
  · split
    · intro hp
      injection hp with h
      subst h
      rfl
    · split
      · intro hp
        injection hp with h
        subst h
        rfl
      · split
        · intro hp
          injection hp with h
          subst h
          rfl
        · intro hp
          exact absurd hp (by simp)

theorem C3_amended_witness :
    (middlewareReconstructFailure true RecErr.notFound).status = 401 ∧
    middlewareReconstructFailure false RecErr.notFound =
      middlewareReconstructFailure false RecErr.fragmentMismatch ∧
    (ProxyErr.mk 401 "Invalid X-Partial-Key-Id" "Split key not found or inactive").status
      = 401 :=
  C3_amended tagAEAD true RecErr.notFound RecErr.fragmentMismatch c3SplitOut.1
    "carol" "unknown-key-99" c3SplitOut.2.clientPart
    ⟨401, "Invalid X-Partial-Key-Id", "Split key not found or inactive"⟩ rfl

/-- One revocation entry: owner, and the absolute expiry in milliseconds taken
from the token's own `exp` claim (src/src/services/tokenBlacklist.js). -/
structure BlacklistEntry where
  userId : String
  expMs : Nat
deriving DecidableEq

/-- The in-memory revocation map, keyed by token fingerprint. -/
abbrev BlStore := List (List Char × BlacklistEntry)

/-- `Map.prototype.get`. -/
def blLookup (k : List Char) : BlStore → Option BlacklistEntry
  | [] => none
  | (k1, e) :: rest => if k1 = k then some e else blLookup k rest

/-- `Map.prototype.set`. -/
def blInsert (k : List Char) (e : BlacklistEntry) : BlStore → BlStore
  | [] => [(k, e)]
  | (k1, e1) :: rest =>
    if k1 = k then (k, e) :: rest else (k1, e1) :: blInsert k e rest

/-- `Map.prototype.delete`. -/
def blErase (k : List Char) : BlStore → BlStore
  | [] => []
  | (k1, e1) :: rest =>
    if k1 = k then blErase k rest else (k1, e1) :: blErase k rest

/-- `getTokenId`: the last 16 characters of the token, or nothing when the
token is shorter than 16 characters. -/
def getTokenId (token : String) : Option (List Char) :=
  if token.length < 16 then none
  else some (token.toList.drop (token.length - 16))

/-- `addToBlacklist`: decode the token (`decodeExp` stands for
`jwt.decode(token).exp`, in seconds); refuse tokens with no expiry claim;
treat already-expired tokens as a no-op success; otherwise store an entry that
expires exactly at the token's own expiry. -/
def addToBlacklist (decodeExp : String → Option Nat) (token userId : String)
    (nowMs : Nat) (store : BlStore) : Bool × BlStore :=
  match decodeExp token with
  | none => (false, store)
  | some exp =>
    if exp ≤ nowMs / 1000 then (true, store)
    else
      match getTokenId token with
      | none => (false, store)
      | some tid => (true, blInsert tid ⟨userId, exp * 1000⟩ store)

/-- `isBlacklisted`: absent fingerprints are not revoked; entries past their
expiry are deleted on lookup and reported absent. -/
def isBlacklisted (token : String) (nowMs : Nat) (store : BlStore) :
    Bool × BlStore :=
  match getTokenId token with
  | none => (false, store)
  | some tid =>
    match blLookup tid store with
    | none => (false, store)
    | some e =>
      if e.expMs ≠ 0 ∧ e.expMs < nowMs then (false, blErase tid store)
      else (true, store)

/-- The periodic cleanup interval: delete exactly the entries already past
their expiry. -/
def sweepExpired (nowMs : Nat) : BlStore → BlStore
  | [] => []
  | (k1, e1) :: rest =>
    if e1.expMs ≠ 0 ∧ e1.expMs < nowMs then sweepExpired nowMs rest
    else (k1, e1) :: sweepExpired nowMs rest

/-- Outcome of the blacklist consultation in `authenticateToken`
(src/unnamed/part_008 lines 19-35): a revoked token is answered 401 before
signature verification. -/
inductive AuthOutcome
  | noToken
  | revoked
  | proceed
deriving DecidableEq

/-- The revocation gate of `authenticateToken`. -/
def authBlacklistGate (token : Option String) (nowMs : Nat) (store : BlStore) :
    AuthOutcome × BlStore :=
  match token with
  | none => (.noToken, store)
  | some t =>
    let r := isBlacklisted t nowMs store
    if r.1 then (.revoked, r.2) else (.proceed, r.2)

/-- The operations the authentication pipeline performs on the revocation
store: logout adds, per-request checks, and the periodic sweep. -/
inductive BlOp where
  | addOp (token userId : String) (nowMs : Nat)
  | checkOp (token : String) (nowMs : Nat)
  | sweepOp (nowMs : Nat)

/-- The clock reading of an operation. -/
def blOpTime : BlOp → Nat
  | .addOp _ _ n => n
  | .checkOp _ n => n
  | .sweepOp n => n

/-- Effect of one operation on the store. -/
def blStep (decodeExp : String → Option Nat) (s : BlStore) : BlOp → BlStore
  | .addOp t u n => (addToBlacklist decodeExp t u n s).2
  | .checkOp t n => (isBlacklisted t n s).2
  | .sweepOp n => sweepExpired n s

/-- Run a sequence of revocation-store operations. -/
def blRun (decodeExp : String → Option Nat) (s : BlStore) (ops : List BlOp) :
    BlStore :=
  ops.foldl (blStep decodeExp) s

theorem blLookup_erase_ne (fp k : List Char) (hne : k ≠ fp) (s : BlStore) :
    blLookup fp (blErase k s) = blLookup fp s := by
  induction s with
  | nil => rfl
  | cons hd rest ih =>
    obtain ⟨k1, e1⟩ := hd
    by_cases h2 : k1 = k
    · subst h2
      rw [blErase, if_pos rfl, ih, blLookup, if_neg hne]
    · rw [blErase, if_neg h2]
      by_cases h1 : k1 = fp
      · rw [blLookup, if_pos h1, blLookup, if_pos h1]
      · rw [blLookup, if_neg h1, blLookup, if_neg h1, ih]

theorem blLookup_insert_self (fp : List Char) (e : BlacklistEntry) (s : BlStore) :
    blLookup fp (blInsert fp e s) = some e := by
  induction s with
  | nil => rw [blInsert, blLookup, if_pos rfl]
  | cons hd rest ih =>
    obtain ⟨k1, e1⟩ := hd
    by_cases h1 : k1 = fp
    · rw [blInsert, if_pos h1, blLookup, if_pos rfl]
    · rw [blInsert, if_neg h1, blLookup, if_neg h1, ih]

theorem blLookup_insert_ne (fp k : List Char) (hne : k ≠ fp) (e : BlacklistEntry)
    (s : BlStore) : blLookup fp (blInsert k e s) = blLookup fp s := by
  induction s with
  | nil => simp [blInsert, blLookup, hne]
  | cons hd rest ih =>
    obtain ⟨k1, e1⟩ := hd
    by_cases h2 : k1 = k
    · subst h2
      rw [blInsert, if_pos rfl, blLookup, if_neg hne, blLookup, if_neg hne]
    · by_cases h1 : k1 = fp
      · rw [blInsert, if_neg h2, blLookup, if_pos h1, blLookup, if_pos h1]
      · rw [blInsert, if_neg h2, blLookup, if_neg h1, blLookup, if_neg h1, ih]

theorem blLookup_sweep (fp : List Char) (n : Nat) (s : BlStore) (e : BlacklistEntry)
    (h : blLookup fp s = some e) (hkeep : ¬(e.expMs ≠ 0 ∧ e.expMs < n)) :
    blLookup fp (sweepExpired n s) = some e := by
  induction s with
  | nil => rw [blLookup] at h; exact absurd h (by simp)
  | cons hd rest ih =>
    obtain ⟨k1, e1⟩ := hd
    by_cases h1 : k1 = fp
    · rw [blLookup, if_pos h1] at h
      injection h with h
      subst h
      rw [sweepExpired, if_neg hkeep, blLookup, if_pos h1]
    · rw [blLookup, if_neg h1] at h
      by_cases hk : e1.expMs ≠ 0 ∧ e1.expMs < n
      · rw [sweepExpired, if_pos hk]
        exact ih h
      · rw [sweepExpired, if_neg hk, blLookup, if_neg h1]
        exact ih h

/-- The entry for a revoked fingerprint survives any pipeline operation dated
before the token's expiry, with its expiry unchanged — provided any re-add
that hits the same fingerprint carries the same expiry claim (true in
particular when the same token is logged out again). -/
theorem blInv_step (decodeExp : String → Option Nat) (fp : List Char) (exp : Nat)
    (s : BlStore) (hs : (blLookup fp s).map (fun e => e.expMs) = some (exp * 1000))
    (op : BlOp) (htime : blOpTime op ≤ exp * 1000)
    (hcoll : ∀ t' u n, op = BlOp.addOp t' u n → getTokenId t' = some fp →
      decodeExp t' = some exp) :
    (blLookup fp (blStep decodeExp s op)).map (fun e => e.expMs) =
      some (exp * 1000) := by
  obtain ⟨e, he, hee⟩ : ∃ e, blLookup fp s = some e ∧ e.expMs = exp * 1000 := by
    cases h : blLookup fp s with
    | none => rw [h] at hs; exact absurd hs (by simp)
    | some e => rw [h] at hs; exact ⟨e, rfl, by simpa using hs⟩
  cases op with
  | addOp t' u n =>
    rw [blStep, addToBlacklist]
    cases hd : decodeExp t' with
    | none => dsimp only; rw [he]; simp [hee]
    | some e' =>
      dsimp only
      by_cases hle : e' ≤ n / 1000
      · rw [if_pos hle]
        dsimp only
        rw [he]
        simp [hee]
      · rw [if_neg hle]
        cases ht : getTokenId t' with
        | none => dsimp only; rw [he]; simp [hee]
        | some tid =>
          dsimp only
          by_cases htf : tid = fp
          · subst htf
            have hsame := hcoll t' u n rfl ht
            rw [hd] at hsame
            injection hsame with hsame
            subst hsame
            rw [blLookup_insert_self]
            simp
          · rw [blLookup_insert_ne fp tid htf, he]
            simp [hee]
  | checkOp t' n =>
    rw [blStep, isBlacklisted]
    cases ht : getTokenId t' with
    | none => dsimp only; rw [he]; simp [hee]
    | some tid =>
      dsimp only
      by_cases htf : tid = fp
      · subst htf
        rw [he]
        dsimp only
        have hcond : ¬(e.expMs ≠ 0 ∧ e.expMs < n) := by
          rw [blOpTime] at htime
          omega
        rw [if_neg hcond]
        dsimp only
        rw [he]
        simp [hee]
      · cases hl : blLookup tid s with
        | none => dsimp only; rw [he]; simp [hee]
        | some e2 =>
          dsimp only
          by_cases hc2 : e2.expMs ≠ 0 ∧ e2.expMs < n
          · rw [if_pos hc2]
            dsimp only
            rw [blLookup_erase_ne fp tid htf, he]
            simp [hee]
          · rw [if_neg hc2]
            dsimp only
            rw [he]
            simp [hee]
  | sweepOp n =>
    rw [blStep]
    have hkeep : ¬(e.expMs ≠ 0 ∧ e.expMs < n) := by
      rw [blOpTime] at htime
      omega
    rw [blLookup_sweep fp n s e he hkeep]
    simp [hee]

theorem blInv_run (decodeExp : String → Option Nat) (fp : List Char) (exp : Nat)
    (s : BlStore) (hs : (blLookup fp s).map (fun e => e.expMs) = some (exp * 1000))
    (ops : List BlOp) (htime : ∀ op ∈ ops, blOpTime op ≤ exp * 1000)
    (hcoll : ∀ t' u n, BlOp.addOp t' u n ∈ ops → getTokenId t' = some fp →
      decodeExp t' = some exp) :
    (blLookup fp (blRun decodeExp s ops)).map (fun e => e.expMs) =
      some (exp * 1000) := by
  induction ops generalizing s with
  | nil => exact hs
  | cons op rest ih =>
    refine ih (blStep decodeExp s op)
      (blInv_step decodeExp fp exp s hs op (htime op (List.mem_cons_self op rest))
        (fun t' u n hop => hcoll t' u n (hop ▸ List.mem_cons_self op rest)))
      (fun o ho => htime o (List.mem_cons_of_mem _ ho))
      (fun t' u n h => hcoll t' u n (List.mem_cons_of_mem _ h))

/-- C5. Revocation monotonicity: after a token's fingerprint is added to the
revocation store, any pipeline operations dated before the token's expiry
(further logouts, checks, sweeps) leave the entry in place with its expiry
unchanged (no renewal), so every authentication attempt before the expiry is
answered `revoked` (401); a lookup after the expiry treats the entry as absent
and removes it.  The collision hypothesis says no other-token logout stores a
different expiry under this fingerprint — which holds in particular for
re-logouts of the same token. -/
theorem C5_revocation_monotonic (decodeExp : String → Option Nat)
    (t userId : String) (exp : Nat) (s0 : BlStore)
    (hdec : decodeExp t = some exp)
    (tid : List Char) (htid : getTokenId t = some tid)
    (addNow : Nat) (hfresh : addNow / 1000 < exp)
    (ops : List BlOp)
    (hops_time : ∀ op ∈ ops, blOpTime op ≤ exp * 1000)
    (hops_coll : ∀ t' u n, BlOp.addOp t' u n ∈ ops → getTokenId t' = some tid →
      decodeExp t' = some exp)
    (checkNow : Nat) (hcheck : checkNow ≤ exp * 1000)
    (lateNow : Nat) (hlate : exp * 1000 < lateNow) :
    authBlacklistGate (some t) checkNow
        (blRun decodeExp (addToBlacklist decodeExp t userId addNow s0).2 ops) =
      (.revoked, blRun decodeExp (addToBlacklist decodeExp t userId addNow s0).2 ops) ∧
    isBlacklisted t lateNow
        (blRun decodeExp (addToBlacklist decodeExp t userId addNow s0).2 ops) =
      (false, blErase tid
        (blRun decodeExp (addToBlacklist decodeExp t userId addNow s0).2 ops)) ∧
    (blLookup tid
        (blRun decodeExp (addToBlacklist decodeExp t userId addNow s0).2 ops)).map
      (fun e => e.expMs) = some (exp * 1000) := by
  have hs1 : (addToBlacklist decodeExp t userId addNow s0).2 =
      blInsert tid ⟨userId, exp * 1000⟩ s0 := by
    rw [addToBlacklist, hdec]
    dsimp only
    rw [if_neg (by omega), htid]
  have hstart : (blLookup tid (addToBlacklist decodeExp t userId addNow s0).2).map
      (fun e => e.expMs) = some (exp * 1000) := by
    rw [hs1, blLookup_insert_self]
    rfl
  have hinv := blInv_run decodeExp tid exp
    (addToBlacklist decodeExp t userId addNow s0).2 hstart ops hops_time hops_coll
  obtain ⟨e, he, hee⟩ : ∃ e,
      blLookup tid (blRun decodeExp (addToBlacklist decodeExp t userId addNow s0).2
        ops) = some e ∧ e.expMs = exp * 1000 := by
    cases h : blLookup tid (blRun decodeExp
        (addToBlacklist decodeExp t userId addNow s0).2 ops) with
    | none => rw [h] at hinv; exact absurd hinv (by simp)
    | some e => rw [h] at hinv; exact ⟨e, rfl, by simpa using hinv⟩
  have hexp0 : 0 < exp := by omega
  refine ⟨?_, ?_, hinv⟩
  · rw [authBlacklistGate]
    have hbl : isBlacklisted t checkNow
        (blRun decodeExp (addToBlacklist decodeExp t userId addNow s0).2 ops) =
        (true, blRun decodeExp (addToBlacklist decodeExp t userId addNow s0).2 ops) := by
      rw [isBlacklisted, htid]
      dsimp only
      rw [he]
      dsimp only
      rw [if_neg (by omega)]
    rw [hbl]
    simp
  · rw [isBlacklisted, htid]
    dsimp only
    rw [he]
    dsimp only
    rw [if_pos (by constructor <;> omega)]

/-- Concrete 16-character token for the revocation witness. -/
def c5Token : String := "tok-0123456789ab"

/-- Concrete decoder: only `c5Token` decodes, with expiry claim 5 seconds. -/
def c5Decode : String → Option Nat := fun s => if s = c5Token then some 5 else none

/-- The fingerprint of `c5Token` (the whole 16-character string). -/
def c5Tid : List Char := c5Token.toList

/-- A concrete operation trace: one check and one sweep before expiry. -/
def c5Ops : List BlOp := [BlOp.checkOp c5Token 2000, BlOp.sweepOp 3000]

/-- The store after revoking `c5Token` at 1000 ms and running `c5Ops`. -/
def c5Store2 : BlStore :=
  blRun c5Decode ((addToBlacklist c5Decode c5Token "u1" 1000 []).2) c5Ops

theorem C5_revocation_monotonic_witness :
    authBlacklistGate (some c5Token) 4999 c5Store2 = (.revoked, c5Store2) ∧
    isBlacklisted c5Token 6000 c5Store2 = (false, blErase c5Tid c5Store2) ∧
    (blLookup c5Tid c5Store2).map (fun e => e.expMs) = some (5 * 1000) :=
  C5_revocation_monotonic c5Decode c5Token "u1" 5 [] (by decide) c5Tid rfl
    1000 (by decide) c5Ops (by decide)
    (by
      intro t' u n h hc
      simp [c5Ops] at h)
    4999 (by decide) 6000 (by decide)

/-- A 16-character token that decodes with expiry claim 100 seconds. -/
def c10T1 : String := "AAAAAAAAAAAAAAAA"

/-- A 17-character token carrying no expiry claim whose trailing 16 characters
coincide with those of `c10T1`. -/
def c10T2 : String := "ZAAAAAAAAAAAAAAAA"

/-- Concrete decoder: only `c10T1` decodes. -/
def c10Decode : String → Option Nat := fun s => if s = c10T1 then some 100 else none

/-- The store after revoking `c10T1` at time 0. -/
def c10Store : BlStore := (addToBlacklist c10Decode c10T1 "u" 0 []).2

/-- C10 counterexample: `c10T2` has no expiry claim, so `addToBlacklist`
returns false and stores nothing for it — yet its membership check returns
true, because the revoked token `c10T1` shares its trailing-16-character
fingerprint.  This refutes the claim that the membership check always returns
false for such tokens. -/
theorem C10_counterexample :
    c10Decode c10T2 = none ∧
    addToBlacklist c10Decode c10T2 "u" 0 c10Store = (false, c10Store) ∧
    (isBlacklisted c10T2 50 c10Store).1 = true := by
  refine ⟨by decide, by decide, by decide⟩

/-- C10 amended: a token with no expiry claim is never stored — `add` returns
false and leaves the store unchanged — and a token shorter than 16 characters
is never stored either (its `add` leaves the store unchanged) and is never
reported blacklisted; but the membership check for a ≥16-character no-expiry
token can still return true when a revoked token shares its trailing-16
character fingerprint. -/
theorem C10_unrevocable_amended (decodeExp : String → Option Nat)
    (token token2 userId userId2 : String) (nowMs nowMs2 : Nat) (s s2 : BlStore)
    (hnoexp : decodeExp token = none) (hshort : token2.length < 16) :
    addToBlacklist decodeExp token userId nowMs s = (false, s) ∧
    (addToBlacklist decodeExp token2 userId2 nowMs2 s2).2 = s2 ∧
    isBlacklisted token2 nowMs2 s2 = (false, s2) := by
  have hgt : getTokenId token2 = none := by
    rw [getTokenId, if_pos hshort]
  refine ⟨?_, ?_, ?_⟩
  · rw [addToBlacklist, hnoexp]
  · rw [addToBlacklist]
    cases hd : decodeExp token2 with
    | none => rfl
    | some e' =>
      dsimp only
      by_cases hle : e' ≤ nowMs2 / 1000
      · rw [if_pos hle]
      · rw [if_neg hle, hgt]
  · rw [isBlacklisted, hgt]

theorem C10_unrevocable_amended_witness :
    addToBlacklist c10Decode c10T2 "u" 0 c10Store = (false, c10Store) ∧
    (addToBlacklist c10Decode "short" "u" 0 c10Store).2 = c10Store ∧
    isBlacklisted "short" 0 c10Store = (false, c10Store) :=
  C10_unrevocable_amended c10Decode c10T2 "short" "u" "u" 0 0 c10Store c10Store
    (by decide) (by decide)

/-- JavaScript truthiness of a header value: present and non-empty. -/
def truthyStr : Option String → Bool
  | none => false
  | some s => s ≠ ""

/-- The authentication method attached to the request. -/
inductive AuthMethod
  | byokSplitKey
  | serverKey
deriving DecidableEq

/-- The method derivation of `authenticateToken` (src/unnamed/part_008 lines
50-58): BYOK exactly when both header values are truthy. -/
def authMethodOf (keyIdHdr partKeyHdr : Option String) : AuthMethod :=
  if truthyStr keyIdHdr && truthyStr partKeyHdr then .byokSplitKey else .serverKey

/-- Result of `validateSplitKeyHeaders`. -/
inductive HeaderValidation
  | invalid (error : String)
  | valid (keyId clientPart : String)
deriving DecidableEq

/-- `SplitKeyService.validateSplitKeyHeaders` (src/unnamed/part_014 lines
252-283): missing headers, then the two length checks.  No charset check
appears here. -/
def validateSplitKeyHeaders (keyIdHdr partKeyHdr : Option String) :
    HeaderValidation :=
  if ¬(truthyStr keyIdHdr = true ∧ truthyStr partKeyHdr = true) then
    .invalid "Missing required split key headers: X-Partial-Key-Id and X-Partial-Key"
  else
    let keyId := keyIdHdr.getD ""
    let clientPart := partKeyHdr.getD ""
    if keyId.length < 8 then .invalid "Invalid X-Partial-Key-Id format"
    else if clientPart.length < 16 then .invalid "Invalid X-Partial-Key format"
    else .valid keyId clientPart

/-- Outcome of the `validateSplitKey` middleware
(src/src/middleware/splitKey.js): pass through for server-key requests, and
for BYOK requests a 400 `BadRequest` on invalid headers — the reconstruction
middleware only runs after a pass. -/
inductive MwGate
  | pass
  | badRequest (message : String)
deriving DecidableEq

/-- The `validateSplitKey` middleware. -/
def validateSplitKeyMw (keyIdHdr partKeyHdr : Option String) : MwGate :=
  match authMethodOf keyIdHdr partKeyHdr with
  | .serverKey => .pass
  | .byokSplitKey =>
    match validateSplitKeyHeaders keyIdHdr partKeyHdr with
    | .invalid e => .badRequest e
    | .valid _ _ => .pass

/-- The identifier charset of the split route (src/unnamed/part_004 line 93):
letters, digits, hyphen, underscore. -/
def isKeyIdChar (c : Char) : Bool := c.isAlpha || c.isDigit || c = '-' || c = '_'

/-- The split route's keyId validation (creation time, not request time):
reject a caller-chosen keyId shorter than 8 characters or not matching the
`[a-zA-Z0-9_-]+` pattern. -/
def splitRouteRejectsKeyId (keyId : String) : Bool :=
  decide (keyId.length < 8) || !(keyId.toList.all isKeyIdChar) ||
    decide (keyId.length = 0)

/-- C8 counterexample: the claim states a BYOK key identifier containing a
character outside the alphanumeric-plus-hyphen-underscore charset is rejected
with `BadRequest` before reconstruction, but `validateSplitKeyHeaders` only
checks lengths: the 8-character keyId `abcd!efg` with a 16-character fragment
passes header validation (the charset pattern exists only in the key creation
route, which would reject this keyId). -/
theorem C8_counterexample :
    validateSplitKeyHeaders (some "abcd!efg") (some "0123456789abcdef") =
      .valid "abcd!efg" "0123456789abcdef" ∧
    validateSplitKeyMw (some "abcd!efg") (some "0123456789abcdef") = .pass ∧
    splitRouteRejectsKeyId "abcd!efg" = true := by
  refine ⟨by decide, by decide, by decide⟩

/-- C8 amended: a request without both truthy BYOK headers (in particular with
exactly one present) is classified server-credential mode; with both present, a
keyId shorter than 8 characters or a fragment shorter than 16 characters is
rejected `BadRequest` by the header-validation middleware before any
reconstruction; a request passing both length checks proceeds regardless of
the keyId's characters — the charset restriction is enforced only by the key
creation route. -/
theorem C8_byok_headers_amended
    (kh1 ph1 : Option String)
    (hone : truthyStr kh1 = false ∨ truthyStr ph1 = false)
    (kid2 cp2 : String) (hk2 : kid2 ≠ "") (hp2 : cp2 ≠ "")
    (hlen2 : kid2.length < 8 ∨ cp2.length < 16)
    (kid3 cp3 : String) (hk3 : kid3 ≠ "") (hp3 : cp3 ≠ "")
    (hlen3 : 8 ≤ kid3.length) (hlen3b : 16 ≤ cp3.length)
    (kid4 : String) (hbad4 : kid4.toList.all isKeyIdChar = false) :
    authMethodOf kh1 ph1 = .serverKey ∧
    validateSplitKeyMw (some kid2) (some cp2) =
      .badRequest (if kid2.length < 8 then "Invalid X-Partial-Key-Id format"
        else "Invalid X-Partial-Key format") ∧
    validateSplitKeyHeaders (some kid3) (some cp3) = .valid kid3 cp3 ∧
    splitRouteRejectsKeyId kid4 = true := by
  have ht2 : truthyStr (some kid2) = true := by simpa [truthyStr] using hk2
  have hq2 : truthyStr (some cp2) = true := by simpa [truthyStr] using hp2
  have ht3 : truthyStr (some kid3) = true := by simpa [truthyStr] using hk3
  have hq3 : truthyStr (some cp3) = true := by simpa [truthyStr] using hp3
  refine ⟨?_, ?_, ?_, ?_⟩
  · rcases hone with h | h <;> rw [authMethodOf, h] <;> simp
  · have hbyok : authMethodOf (some kid2) (some cp2) = .byokSplitKey := by
      rw [authMethodOf, ht2, hq2]
      rfl
    have hhv : validateSplitKeyHeaders (some kid2) (some cp2) =
        .invalid (if kid2.length < 8 then "Invalid X-Partial-Key-Id format"
          else "Invalid X-Partial-Key format") := by
      rw [validateSplitKeyHeaders, if_neg (by simp [ht2, hq2])]
      simp only [Option.getD]
      by_cases h8 : kid2.length < 8
      · rw [if_pos h8, if_pos h8]
      · have h16 : cp2.length < 16 := by omega
        rw [if_neg h8, if_pos h16, if_neg h8]
    rw [validateSplitKeyMw, hbyok]
    dsimp only
    rw [hhv]
  · rw [validateSplitKeyHeaders, if_neg (by simp [ht3, hq3])]
    simp only [Option.getD]
    rw [if_neg (by omega), if_neg (by omega)]
  · rw [splitRouteRejectsKeyId, hbad4]
    simp

theorem C8_byok_headers_amended_witness :
    authMethodOf (some "abcdefgh") none = .serverKey ∧
    validateSplitKeyMw (some "short") (some "0123456789abcdef") =
      .badRequest (if ("short" : String).length < 8 then
        "Invalid X-Partial-Key-Id format" else "Invalid X-Partial-Key format") ∧
    validateSplitKeyHeaders (some "abcd!efg") (some "0123456789abcdef") =
      .valid "abcd!efg" "0123456789abcdef" ∧
    splitRouteRejectsKeyId "bad*key*" = true :=
  C8_byok_headers_amended (some "abcdefgh") none (Or.inr rfl)
    "short" "0123456789abcdef" (by decide) (by decide) (Or.inl (by decide))
    "abcd!efg" "0123456789abcdef" (by decide) (by decide) (by decide) (by decide)
    "bad*key*" (by decide)

/-- One row of the `user` table, as `checkQuota` reads it
(src/src/models/User.js). -/
structure ApiUser where
  userId : String
  active : Bool
  requestsToday : Nat
  requestsMonth : Nat
  dailyQuota : Nat
  monthlyQuota : Nat
deriving DecidableEq

/-- The counter snapshot the quota middleware puts in the 429 body. -/
structure QuotaInfo where
  dailyQuota : Nat
  dailyUsed : Nat
  monthlyQuota : Nat
  monthlyUsed : Nat
deriving DecidableEq

/-- Return value of `UserModel.checkQuota`: the exceeded branches carry only a
reason (the `user` field stays undefined); the success branch carries the
user. -/
structure QuotaCheckResult where
  exceeded : Bool
  reason : Option String
  user : Option ApiUser
deriving DecidableEq

/-- `prisma.user.findUnique({ where: { userId } })`. -/
def findUserByUserId (users : List ApiUser) (uid : String) : Option ApiUser :=
  users.find? (fun u => u.userId = uid)

/-- `UserModel.checkQuota` (src/src/models/User.js lines 130-150). -/
def checkQuota (users : List ApiUser) (uid : String) : QuotaCheckResult :=
  match findUserByUserId users uid with
  | none => ⟨true, some "User not found", none⟩
  | some u =>
    if !u.active then ⟨true, some "User is inactive", none⟩
    else if u.dailyQuota ≤ u.requestsToday then
      ⟨true, some "Daily quota exceeded", none⟩
    else if u.monthlyQuota ≤ u.requestsMonth then
      ⟨true, some "Monthly quota exceeded", none⟩
    else ⟨false, none, some u⟩

/-- The 429 body of the `quotaCheck` middleware
(src/src/middleware/quotaCheck.js): `quotaInfo` is built from the result's
`user` field when present, otherwise null. -/
structure QuotaRejection where
  status : Nat
  error : String
  message : Option String
  quotaInfo : Option QuotaInfo
deriving DecidableEq

/-- The `quotaCheck` middleware: `some` is a 429 rejection, `none` lets the
request through. -/
def quotaCheckMw (users : List ApiUser) (uid : String) : Option QuotaRejection :=
  let r := checkQuota users uid
  if r.exceeded then
    some ⟨429, "Quota Exceeded", r.reason,
      r.user.map (fun u => ⟨u.dailyQuota, u.requestsToday, u.monthlyQuota,
        u.requestsMonth⟩)⟩
  else none

/-- `UserModel.incrementRequests`, called by `trackRequest`
(src/unnamed/part_015 lines 44-52) for every admitted request. -/
def incrementRequests (users : List ApiUser) (uid : String) : List ApiUser :=
  users.map (fun u =>
    if u.userId = uid then
      { u with requestsToday := u.requestsToday + 1,
               requestsMonth := u.requestsMonth + 1 }
    else u)

/-- One request through the quota stage: a 429 short-circuits before any
counter update; an admitted request is forwarded and then counted by
`trackRequest`. -/
def quotaPipeline (users : List ApiUser) (uid : String) :
    Option QuotaRejection × List ApiUser :=
  match quotaCheckMw users uid with
  | some rej => (some rej, users)
  | none => (none, incrementRequests users uid)

theorem find_incrementRequests (users : List ApiUser) (uid : String) :
    findUserByUserId (incrementRequests users uid) uid =
      (findUserByUserId users uid).map (fun u =>
        { u with requestsToday := u.requestsToday + 1,
                 requestsMonth := u.requestsMonth + 1 }) := by
  induction users with
  | nil => rfl
  | cons u rest ih =>
    by_cases hu : u.userId = uid
    · rw [incrementRequests, List.map_cons, if_pos hu]
      rw [findUserByUserId, List.find?_cons_of_pos _ (by simpa using hu),
        findUserByUserId, List.find?_cons_of_pos _ (by simpa using hu)]
      rfl
    · rw [incrementRequests, List.map_cons, if_neg hu]
      rw [findUserByUserId, List.find?_cons_of_neg _ (by simpa using hu),
        findUserByUserId, List.find?_cons_of_neg _ (by simpa using hu)]
      exact ih

/-- C6 counterexample: the claim states the `QuotaExceeded` payload carries the
counter snapshot, but at the boundary the 429 body's `quotaInfo` is null —
`checkQuota` omits the user record on its exceeded branches, so the
middleware's `user ? {...} : null` always takes the null arm. -/
theorem C6_counterexample :
    quotaCheckMw [⟨"u1", true, 5, 10, 5, 100⟩] "u1" =
      some ⟨429, "Quota Exceeded", some "Daily quota exceeded", none⟩ := by
  decide

/-- C6 amended: an active identity at `dailyCeiling - 1` (and under its monthly
ceiling) is admitted and its daily counter becomes exactly `dailyCeiling`;
an identity at or above `dailyCeiling` gets a 429 `Quota Exceeded` rejection,
no counter changes, and the rejection's `quotaInfo` field is null rather than
the counter snapshot. -/
theorem C6_quota_boundary_amended (users users2 : List ApiUser) (uid uid2 : String)
    (u u2 : ApiUser)
    (hfind : findUserByUserId users uid = some u) (hact : u.active = true)
    (hday : u.requestsToday + 1 = u.dailyQuota)
    (hmon : u.requestsMonth < u.monthlyQuota)
    (hfind2 : findUserByUserId users2 uid2 = some u2) (hact2 : u2.active = true)
    (hday2 : u2.dailyQuota ≤ u2.requestsToday) :
    (quotaPipeline users uid).1 = none ∧
    findUserByUserId (quotaPipeline users uid).2 uid =
      some { u with requestsToday := u.dailyQuota,
                    requestsMonth := u.requestsMonth + 1 } ∧
    quotaPipeline users2 uid2 =
      (some ⟨429, "Quota Exceeded", some "Daily quota exceeded", none⟩, users2) := by
  have hchk : checkQuota users uid = ⟨false, none, some u⟩ := by
    rw [checkQuota, hfind]
    dsimp only
    rw [if_neg (by simp [hact]), if_neg (by omega), if_neg (by omega)]
  have hmw : quotaCheckMw users uid = none := by
    rw [quotaCheckMw, hchk]
    rfl
  have hchk2 : checkQuota users2 uid2 = ⟨true, some "Daily quota exceeded", none⟩ := by
    rw [checkQuota, hfind2]
    dsimp only
    rw [if_neg (by simp [hact2]), if_pos hday2]
  have hmw2 : quotaCheckMw users2 uid2 =
      some ⟨429, "Quota Exceeded", some "Daily quota exceeded", none⟩ := by
    rw [quotaCheckMw, hchk2]
    rfl
  refine ⟨?_, ?_, ?_⟩
  · rw [quotaPipeline, hmw]
  · rw [quotaPipeline, hmw]
    dsimp only
    rw [find_incrementRequests, hfind]
    dsimp only [Option.map]
    rw [hday]
  · rw [quotaPipeline, hmw2]

theorem C6_quota_boundary_amended_witness :
    (quotaPipeline [⟨"u1", true, 4, 10, 5, 100⟩] "u1").1 = none ∧
    findUserByUserId (quotaPipeline [⟨"u1", true, 4, 10, 5, 100⟩] "u1").2 "u1" =
      some ⟨"u1", true, 5, 11, 5, 100⟩ ∧
    quotaPipeline [⟨"u2", true, 5, 10, 5, 100⟩] "u2" =
      (some ⟨429, "Quota Exceeded", some "Daily quota exceeded", none⟩,
        [⟨"u2", true, 5, 10, 5, 100⟩]) :=
  C6_quota_boundary_amended [⟨"u1", true, 4, 10, 5, 100⟩]
    [⟨"u2", true, 5, 10, 5, 100⟩] "u1" "u2" ⟨"u1", true, 4, 10, 5, 100⟩
    ⟨"u2", true, 5, 10, 5, 100⟩ (by decide) (by decide) (by decide) (by decide)
    (by decide) (by decide) (by decide)

/-- The two rule kinds accepted by `IpRuleModel.add`
(src/src/models/IpRule.js). -/
inductive IpRuleKind
  | whitelist
  | blacklist
deriving DecidableEq

/-- One row of the `ipRule` table. -/
structure IpRule where
  ipAddress : String
  kind : IpRuleKind
  active : Bool
deriving DecidableEq

/-- The decision `IpRuleModel.isAllowed` returns. -/
structure IpDecision where
  allowed : Bool
  reason : Option String
deriving DecidableEq

/-- `IpRuleModel.isAllowed` (src/src/models/IpRule.js lines 30-60): no active
rule for the address means allow; any active blacklist rule wins; otherwise an
active whitelist rule allows. -/
def isAllowed (rules : List IpRule) (ip : String) : IpDecision :=
  let rs := rules.filter (fun r => r.ipAddress = ip && r.active)
  if rs.isEmpty then ⟨true, none⟩
  else if rs.any (fun r => r.kind = .blacklist) then
    ⟨false, some "IP is blacklisted"⟩
  else if rs.any (fun r => r.kind = .whitelist) then ⟨true, none⟩
  else ⟨false, some "IP not in whitelist"⟩

/-- The `ipCheck` middleware (src/src/middleware/ipCheck.js): 403 `Forbidden`
when the decision is not allowed. -/
inductive IpGate
  | forbidden (reason : Option String)
  | pass
deriving DecidableEq

/-- The `ipCheck` middleware outcome. -/
def ipCheckMw (rules : List IpRule) (ip : String) : IpGate :=
  let d := isAllowed rules ip
  if d.allowed then .pass else .forbidden d.reason

/-- C9. Access-rule evaluation order: an active deny (blacklist) rule for the
address rejects with `Forbidden` regardless of allow rules; otherwise an
active allow (whitelist) rule admits; and an address with no active rule at
all is admitted (default-permissive). -/
theorem C9_ip_rule_order (rules : List IpRule) (ip ip2 ip3 : String)
    (deny : IpRule)
    (hdeny : deny ∈ rules) (hdeny_ip : deny.ipAddress = ip)
    (hdeny_act : deny.active = true) (hdeny_kind : deny.kind = .blacklist)
    (allow : IpRule)
    (hallow : allow ∈ rules) (hallow_ip : allow.ipAddress = ip2)
    (hallow_act : allow.active = true) (hallow_kind : allow.kind = .whitelist)
    (hnodeny2 : ∀ r ∈ rules, r.ipAddress = ip2 → r.active = true →
      r.kind ≠ .blacklist)
    (hnone : ∀ r ∈ rules, r.ipAddress = ip3 → r.active = false) :
    ipCheckMw rules ip = .forbidden (some "IP is blacklisted") ∧
    ipCheckMw rules ip2 = .pass ∧
    ipCheckMw rules ip3 = .pass := by
  refine ⟨?_, ?_, ?_⟩
  · have hmem : deny ∈ rules.filter (fun r => r.ipAddress = ip && r.active) := by
      rw [List.mem_filter]
      exact ⟨hdeny, by simp [hdeny_ip, hdeny_act]⟩
    have hne : (rules.filter (fun r => r.ipAddress = ip && r.active)).isEmpty =
        false := by
      rcases h : (rules.filter (fun r => r.ipAddress = ip && r.active)) with _ | ⟨a, l⟩
      · rw [h] at hmem; exact absurd hmem (by simp)
      · rw [h]; rfl
    have hany : (rules.filter (fun r => r.ipAddress = ip && r.active)).any
        (fun r => r.kind = .blacklist) = true :=
      List.any_eq_true.mpr ⟨deny, hmem, by simp [hdeny_kind]⟩
    rw [ipCheckMw, isAllowed]
    simp only [hne, Bool.false_eq_true, if_false, hany, if_true]
  · have hmem : allow ∈ rules.filter (fun r => r.ipAddress = ip2 && r.active) := by
      rw [List.mem_filter]
      exact ⟨hallow, by simp [hallow_ip, hallow_act]⟩
    have hnoany : (rules.filter (fun r => r.ipAddress = ip2 && r.active)).any
        (fun r => r.kind = .blacklist) = false := by
      rw [Bool.eq_false_iff]
      intro hco
      obtain ⟨r, hrmem, hrk⟩ := List.any_eq_true.mp hco
      rw [List.mem_filter] at hrmem
      obtain ⟨hrin, hcond⟩ := hrmem
      have hip : r.ipAddress = ip2 := by
        have := hcond
        simp at this
        exact this.1
      have hac : r.active = true := by
        have := hcond
        simp at this
        exact this.2
      exact hnodeny2 r hrin hip hac (by simpa using hrk)
    have hany : (rules.filter (fun r => r.ipAddress = ip2 && r.active)).any
        (fun r => r.kind = .whitelist) = true :=
      List.any_eq_true.mpr ⟨allow, hmem, by simp [hallow_kind]⟩
    have hne : (rules.filter (fun r => r.ipAddress = ip2 && r.active)).isEmpty =
        false := by
      rcases h : (rules.filter (fun r => r.ipAddress = ip2 && r.active)) with _ | ⟨a, l⟩
      · rw [h] at hmem; exact absurd hmem (by simp)
      · rw [h]; rfl
    rw [ipCheckMw, isAllowed]
    simp only [hne, Bool.false_eq_true, if_false, hnoany, hany, if_true]
  · have hempty : (rules.filter (fun r => r.ipAddress = ip3 && r.active)) = [] := by
      rw [List.filter_eq_nil_iff]
      intro r hr
      by_cases hip : r.ipAddress = ip3
      · simp [hip, hnone r hr hip]
      · simp [hip]
    rw [ipCheckMw, isAllowed, hempty]
    rfl

theorem C9_ip_rule_order_witness :
    ipCheckMw [⟨"1.2.3.4", .blacklist, true⟩, ⟨"1.2.3.4", .whitelist, true⟩,
        ⟨"5.6.7.8", .whitelist, true⟩, ⟨"9.9.9.9", .whitelist, false⟩] "1.2.3.4" =
      .forbidden (some "IP is blacklisted") ∧
    ipCheckMw [⟨"1.2.3.4", .blacklist, true⟩, ⟨"1.2.3.4", .whitelist, true⟩,
        ⟨"5.6.7.8", .whitelist, true⟩, ⟨"9.9.9.9", .whitelist, false⟩] "5.6.7.8" =
      .pass ∧
    ipCheckMw [⟨"1.2.3.4", .blacklist, true⟩, ⟨"1.2.3.4", .whitelist, true⟩,
        ⟨"5.6.7.8", .whitelist, true⟩, ⟨"9.9.9.9", .whitelist, false⟩] "9.9.9.9" =
      .pass :=
  C9_ip_rule_order
    [⟨"1.2.3.4", .blacklist, true⟩, ⟨"1.2.3.4", .whitelist, true⟩,
      ⟨"5.6.7.8", .whitelist, true⟩, ⟨"9.9.9.9", .whitelist, false⟩]
    "1.2.3.4" "5.6.7.8" "9.9.9.9"
    ⟨"1.2.3.4", .blacklist, true⟩ (by decide) (by decide) (by decide) (by decide)
    ⟨"5.6.7.8", .whitelist, true⟩ (by decide) (by decide) (by decide) (by decide)
    (by decide) (by decide)

/-- Substring test (`String.prototype.includes`). -/
def hasSub (pat : List Char) : List Char → Bool
  | [] => pat.isEmpty
  | c :: rest => pat.isPrefixOf (c :: rest) || hasSub pat rest

/-- Split the leading scheme off at the first `://`. -/
def breakScheme : List Char → Option (List Char × List Char)
  | ':' :: '/' :: '/' :: rest => some ([], rest)
  | c :: rest => (breakScheme rest).map (fun p => (c :: p.1, p.2))
  | [] => none

/-- Drop a userinfo component: keep everything after the last `@`. -/
def afterLastAt (l : List Char) : List Char :=
  (l.reverse.takeWhile (fun c => c ≠ '@')).reverse

/-- Extract the host from an authority component: a bracketed IPv6 host is
kept with its brackets (as the WHATWG `URL.hostname` serializes it), otherwise
everything before the port separator. -/
def hostOfAuthority (auth : List Char) : Option (List Char) :=
  match afterLastAt auth with
  | '[' :: rest =>
    if rest.contains ']' then
      some ('[' :: rest.takeWhile (fun c => c ≠ ']') ++ [']'])
    else none
  | hostport =>
    let h := hostport.takeWhile (fun c => c ≠ ':')
    if h.isEmpty then none else some h

/-- The two URL components `validateURL` consults. -/
structure ParsedURL where
  protocol : String
  hostname : String
deriving DecidableEq

/-- A model of the WHATWG `new URL(...)` parser restricted to the hierarchical
`scheme://[userinfo@]host[:port][/path]` shapes the validator receives:
scheme and host are lowercased, an IPv6 host keeps its brackets, and the
protocol carries its trailing colon. -/
def parseURL (url : String) : Option ParsedURL :=
  match breakScheme url.toList with
  | none => none
  | some (scheme, rest) =>
    if scheme.isEmpty then none
    else if !(scheme.all (fun c => c.isAlpha)) then none
    else
      let auth := rest.takeWhile (fun c => c ≠ '/' && c ≠ '?' && c ≠ '#')
      match hostOfAuthority auth with
      | none => none
      | some h =>
        some ⟨String.mk (scheme.map Char.toLower) ++ ":",
          String.mk (h.map Char.toLower)⟩

/-- `/^172\.(1[6-9]|2[0-9]|3[0-1])\./` of PRIVATE_IP_RANGES. -/
def is172Private (l : List Char) : Bool :=
  match l with
  | '1' :: '7' :: '2' :: '.' :: d1 :: d2 :: '.' :: _ =>
    (d1 = '1' && ('6' ≤ d2 && d2 ≤ '9')) ||
    (d1 = '2' && d2.isDigit) ||
    (d1 = '3' && (d2 = '0' || d2 = '1'))
  | _ => false

/-- PRIVATE_IP_RANGES (src/src/utils/urlValidator.js lines 9-22), as one
predicate: loopback, RFC 1918, link-local, IPv6 loopback/link-local/unique
local, and IPv4-mapped IPv6 forms. -/
def privateIpTest (h : String) : Bool :=
  let l := h.toList
  ("127.".toList.isPrefixOf l) ||
  ("10.".toList.isPrefixOf l) ||
  is172Private l ||
  ("192.168.".toList.isPrefixOf l) ||
  ("169.254.".toList.isPrefixOf l) ||
  (h = "::1") ||
  ("fe80:".toList.isPrefixOf l) ||
  ("fc00:".toList.isPrefixOf l) ||
  ("fd00:".toList.isPrefixOf l) ||
  ("::ffff:127.".toList.isPrefixOf l) ||
  ("::ffff:10.".toList.isPrefixOf l) ||
  ("::ffff:192.168.".toList.isPrefixOf l)

/-- LOCALHOST_PATTERNS. -/
def localhostPatterns : List String :=
  ["localhost", "0.0.0.0", "127.0.0.1", "[::1]", "[::]"]

/-- METADATA_IPS: the explicit cloud-metadata endpoint list. -/
def metadataIps : List String :=
  ["169.254.169.254", "169.254.170.2", "metadata.google.internal",
    "100.100.100.200"]

/-- `(\d{1,3}\.){3}\d{1,3}`: `groups` dotted groups of one to three digits. -/
def ipv4Groups : Nat → List Char → Bool
  | groups, l =>
    let ds := l.takeWhile (fun c => c.isDigit)
    let rest := l.dropWhile (fun c => c.isDigit)
    if ds.length = 0 || 3 < ds.length then false
    else
      match groups, rest with
      | 1, [] => true
      | g + 2, '.' :: rest2 => ipv4Groups (g + 1) rest2
      | _, _ => false

/-- The IPv4 arm of `isIPAddress`. -/
def isIPv4String (h : String) : Bool := ipv4Groups 4 h.toList

/-- Split on `:`. -/
def splitCols : List Char → List (List Char)
  | [] => [[]]
  | ':' :: rest => [] :: splitCols rest
  | c :: rest =>
    match splitCols rest with
    | [] => [[c]]
    | p :: ps => (c :: p) :: ps

/-- Hex digit (either case), for the simplified IPv6 pattern. -/
def isHexDig (c : Char) : Bool :=
  c.isDigit || ('a' ≤ c && c ≤ 'f') || ('A' ≤ c && c ≤ 'F')

/-- `/^([0-9a-f]{0,4}:){2,7}[0-9a-f]{0,4}$/i`: two to seven colons separating
hex groups of at most four digits. -/
def isIPv6String (h : String) : Bool :=
  let parts := splitCols h.toList
  (decide (3 ≤ parts.length) && decide (parts.length ≤ 8)) &&
  parts.all (fun p => decide (p.length ≤ 4) && p.all isHexDig)

/-- `isIPAddress` (src/src/utils/urlValidator.js). -/
def isIPAddress (h : String) : Bool := isIPv4String h || isIPv6String h

/-- `/^100\.6[4-9]\./`. -/
def is100_64 (l : List Char) : Bool :=
  match l with
  | '1' :: '0' :: '0' :: '.' :: '6' :: d :: '.' :: _ => '4' ≤ d && d ≤ '9'
  | _ => false

/-- `/^100\.[7-9]\d\./`. -/
def is100_7x (l : List Char) : Bool :=
  match l with
  | '1' :: '0' :: '0' :: '.' :: d1 :: d2 :: '.' :: _ =>
    ('7' ≤ d1 && d1 ≤ '9') && d2.isDigit
  | _ => false

/-- `/^100\.1[0-2]\d\./`. -/
def is100_1xx (l : List Char) : Bool :=
  match l with
  | '1' :: '0' :: '0' :: '.' :: '1' :: d1 :: d2 :: '.' :: _ =>
    ('0' ≤ d1 && d1 ≤ '2') && d2.isDigit
  | _ => false

/-- `/^22[4-9]\./`. -/
def is22x (l : List Char) : Bool :=
  match l with
  | '2' :: '2' :: d :: '.' :: _ => '4' ≤ d && d ≤ '9'
  | _ => false

/-- `/^23[0-9]\./`. -/
def is23x (l : List Char) : Bool :=
  match l with
  | '2' :: '3' :: d :: '.' :: _ => d.isDigit
  | _ => false

/-- `/^24[0-9]\./`. -/
def is24x (l : List Char) : Bool :=
  match l with
  | '2' :: '4' :: d :: '.' :: _ => d.isDigit
  | _ => false

/-- `/^25[0-5]\./`. -/
def is25x (l : List Char) : Bool :=
  match l with
  | '2' :: '5' :: d :: '.' :: _ => '0' ≤ d && d ≤ '5'
  | _ => false

/-- The reserved-range list of `isPublicIP`. -/
def isReservedIp (h : String) : Bool :=
  let l := h.toList
  ("0.".toList.isPrefixOf l) ||
  is100_64 l || is100_7x l || is100_1xx l ||
  ("192.0.0.".toList.isPrefixOf l) ||
  ("192.0.2.".toList.isPrefixOf l) ||
  ("198.18.".toList.isPrefixOf l) ||
  ("198.19.".toList.isPrefixOf l) ||
  ("198.51.100.".toList.isPrefixOf l) ||
  ("203.0.113.".toList.isPrefixOf l) ||
  is22x l || is23x l || is24x l || is25x l

/-- `isPublicIP` (src/src/utils/urlValidator.js): not private, not a localhost
literal, not a metadata endpoint, not reserved. -/
def isPublicIP (h : String) : Bool :=
  !privateIpTest h && !localhostPatterns.contains h &&
    !metadataIps.contains h && !isReservedIp h

/-- The validator's verdict. -/
structure UrlVerdict where
  valid : Bool
  error : Option String
deriving DecidableEq

/-- `validateURL` (src/src/utils/urlValidator.js lines 47-155), checks in
source order: emptiness, the 2048-character bound, parseability, the protocol
allow-list (`http:` only in development), the localhost list, the metadata
list, the private ranges, the public-IP requirement for literal IP hosts, and
suspicious `..`/`%00` patterns. -/
def validateURL (nodeEnv : String) (url : String) : UrlVerdict :=
  if url = "" then ⟨false, some "URL must be a non-empty string"⟩
  else if 2048 < url.length then
    ⟨false, some "URL too long (max 2048 characters)"⟩
  else
    match parseURL url with
    | none => ⟨false, some "Invalid URL format"⟩
    | some parsed =>
      let allowedProtocols :=
        if nodeEnv = "development" then ["https:", "http:"] else ["https:"]
      if !(allowedProtocols.contains parsed.protocol) then
        ⟨false, some ("Protocol must be one of: " ++
          String.intercalate ", " allowedProtocols)⟩
      else
        let hostname := parsed.hostname
        if localhostPatterns.contains hostname then
          ⟨false, some "Localhost URLs are not allowed"⟩
        else if metadataIps.contains hostname then
          ⟨false, some "Cloud metadata service URLs are not allowed"⟩
        else if privateIpTest hostname then
          ⟨false, some "Private IP addresses are not allowed"⟩
        else if isIPAddress hostname && !isPublicIP hostname then
          ⟨false, some "Only public IP addresses are allowed"⟩
        else if hasSub "..".toList hostname.toList ||
            hasSub "%00".toList hostname.toList then
          ⟨false, some "Suspicious URL pattern detected"⟩
        else ⟨true, none⟩

/-- C4. The SSRF boundary table: the five rejections (private address,
metadata endpoint, IPv6 loopback via the localhost list, plain-http protocol
in production, any ≥2049-character URL) and the acceptance of
`https://example.com/x`. -/
theorem C4_ssrf_boundary_table (env : String) (url : String)
    (hlen : 2049 ≤ url.length) :
    validateURL "production" "https://10.0.0.1/x" =
      ⟨false, some "Private IP addresses are not allowed"⟩ ∧
    validateURL "production" "https://169.254.169.254/" =
      ⟨false, some "Cloud metadata service URLs are not allowed"⟩ ∧
    validateURL "production" "https://[::1]/x" =
      ⟨false, some "Localhost URLs are not allowed"⟩ ∧
    validateURL "production" "http://example.com/x" =
      ⟨false, some "Protocol must be one of: https:"⟩ ∧
    validateURL env url = ⟨false, some "URL too long (max 2048 characters)"⟩ ∧
    validateURL "production" "https://example.com/x" = ⟨true, none⟩ := by
  refine ⟨by decide, by decide, by decide, by decide, ?_, by decide⟩
  have hne : url ≠ "" := by
    intro h
    rw [h] at hlen
    exact absurd hlen (by decide)
  rw [validateURL, if_neg hne, if_pos (by omega)]

/-- A 2049-character URL for the length-bound witness. -/
def c4LongUrl : String := String.mk (List.replicate 2049 'a')

theorem C4_ssrf_boundary_table_witness :
    validateURL "production" "https://10.0.0.1/x" =
      ⟨false, some "Private IP addresses are not allowed"⟩ ∧
    validateURL "production" "https://169.254.169.254/" =
      ⟨false, some "Cloud metadata service URLs are not allowed"⟩ ∧
    validateURL "production" "https://[::1]/x" =
      ⟨false, some "Localhost URLs are not allowed"⟩ ∧
    validateURL "production" "http://example.com/x" =
      ⟨false, some "Protocol must be one of: https:"⟩ ∧
    validateURL "production" c4LongUrl =
      ⟨false, some "URL too long (max 2048 characters)"⟩ ∧
    validateURL "production" "https://example.com/x" = ⟨true, none⟩ :=
  C4_ssrf_boundary_table "production" c4LongUrl (by
    have h : c4LongUrl.length = 2049 := by
      show (List.replicate 2049 'a').length = 2049
      rw [List.length_replicate]
    omega)
